import Mathlib

/-!
Verification of the ELI5 Slack bot (`api/index.py`, `slack_app.py`).

Python strings are modelled as `List Char` (one element per Unicode code
point, matching Python's `len`/slicing semantics).  Machine-level external
collaborators (the network, the Slack SDK transport, `hmac`/`hashlib`, the
LLM providers and `json.loads`) are passed in as explicit oracle functions;
everything else is translated directly from the source.
-/

/-- Python `str`, one entry per code point. -/
abbrev Str := List Char

/-- Shorthand turning a Lean string literal into the `List Char` model. -/
def S (s : String) : Str := s.toList

/-- The apostrophe character (U+0027), built numerically. -/
def apos : Char := Char.ofNat 39

/-- Whitespace as recognised by Python's `str.strip`, `re`'s `\s` and
`int()` (ASCII whitespace, the C1 controls and the Unicode space set). -/
def pySpace (c : Char) : Bool :=
  let n := c.toNat
  n == 32 || (9 ≤ n && n ≤ 13) || (28 ≤ n && n ≤ 31) || n == 133 ||
    n == 160 || n == 5760 || (8192 ≤ n && n ≤ 8202) || n == 8232 ||
    n == 8233 || n == 8239 || n == 8287 || n == 12288

/-- Python `str.strip()`. -/
def pyStrip (s : Str) : Str :=
  ((s.dropWhile pySpace).reverse.dropWhile pySpace).reverse

/-- Python `str.rstrip(chars)`: drop trailing characters from `cs`. -/
def pyRstrip (cs : Str) (s : Str) : Str :=
  (s.reverse.dropWhile (fun c => cs.contains c)).reverse

/-- JSON values, as produced by Python's `json` module (`None`/`bool`/
`int`/`str`/`list`/`dict`; dicts keep insertion order). -/
inductive Json where
  | null
  | bool (b : Bool)
  | num (n : Int)
  | str (s : Str)
  | arr (elems : List Json)
  | obj (fields : List (Str × Json))

/-- Ordered dict lookup (first occurrence wins). -/
def lookupField : List (Str × Json) → Str → Option Json
  | [], _ => none
  | (k, v) :: rest, key => if k == key then some v else lookupField rest key

/-- Python `d.get(key)`: `none` models `None` (also when the receiver is
not a dict). -/
def Json.get : Json → Str → Option Json
  | .obj fs, key => lookupField fs key
  | _, _ => none

/-- Python `d.get(key, default)`. -/
def Json.getD (j : Json) (key : Str) (d : Json) : Json := (j.get key).getD d

/-- Python `d.get(key, default)` where the call sites use the value as a
string (non-string values are collapsed to the default). -/
def Json.getStrD (j : Json) (key : Str) (d : Str) : Str :=
  match j.get key with
  | some (.str s) => s
  | _ => d

/-- Python `d.get(key, default)` where the call sites use the value as a
list. -/
def Json.getArrD (j : Json) (key : Str) (d : List Json) : List Json :=
  match j.get key with
  | some (.arr xs) => xs
  | _ => d

/-- Python `d.get(key) == "literal"` (equality of a fetched value with a
string literal). -/
def isStrV (o : Option Json) (s : Str) : Bool :=
  match o with
  | some (.str t) => t == s
  | _ => false

/-- Python truthiness of a JSON value. -/
def Json.truthy : Json → Bool
  | .null => false
  | .bool b => b
  | .num n => n != 0
  | .str s => !s.isEmpty
  | .arr xs => !xs.isEmpty
  | .obj fs => !fs.isEmpty

/-- Python truthiness of a `d.get(...)` result (`None` is falsy). -/
def truthyO : Option Json → Bool
  | none => false
  | some j => j.truthy

/-- Python truthiness of an optional string (absent header or `""` is
falsy). -/
def truthyS : Option Str → Bool
  | none => false
  | some s => !s.isEmpty

/-- Lower-case hexadecimal digit. -/
def hexDigitChar (n : Nat) : Char :=
  if n < 10 then Char.ofNat (48 + n) else Char.ofNat (87 + n)

/-- Four lower-case hex digits, as in CPython's `\uXXXX` escapes. -/
def hex4 (n : Nat) : Str :=
  [hexDigitChar (n / 4096 % 16), hexDigitChar (n / 256 % 16),
   hexDigitChar (n / 16 % 16), hexDigitChar (n % 16)]

/-- CPython `json.dumps` escaping of one character (`ensure_ascii=True`,
the default): `"`/`\`/control shorthands, `\uXXXX` for other non-printable
or non-ASCII code points, surrogate pairs above U+FFFF. -/
def escapeChar (c : Char) : Str :=
  let n := c.toNat
  if c = '"' then ['\\', '"']
  else if c = '\\' then ['\\', '\\']
  else if n = 8 then ['\\', 'b']
  else if n = 9 then ['\\', 't']
  else if n = 10 then ['\\', 'n']
  else if n = 12 then ['\\', 'f']
  else if n = 13 then ['\\', 'r']
  else if n < 32 then '\\' :: 'u' :: hex4 n
  else if n < 127 then [c]
  else if n < 65536 then '\\' :: 'u' :: hex4 n
  else '\\' :: 'u' :: hex4 (55296 + (n - 65536) / 1024) ++
       ('\\' :: 'u' :: hex4 (56320 + (n - 65536) % 1024))

/-- `json.dumps` of a string (quotes plus per-character escapes). -/
def dumpStr (s : Str) : Str := '"' :: s.flatMap escapeChar ++ ['"']

mutual

/-- Python `json.dumps` with its default separators (`", "` and `": "`). -/
def Json.dumps : Json → Str
  | .null => S "null"
  | .bool b => if b then S "true" else S "false"
  | .num n => S (toString n)
  | .str s => dumpStr s
  | .arr xs => '[' :: dumpsElems xs ++ [']']
  | .obj fs => Char.ofNat 123 :: dumpsFields fs ++ [Char.ofNat 125]

/-- `json.dumps` of the comma-separated elements of a list. -/
def dumpsElems : List Json → Str
  | [] => []
  | [x] => Json.dumps x
  | x :: y :: rest => Json.dumps x ++ S ", " ++ dumpsElems (y :: rest)

/-- `json.dumps` of the comma-separated `"key": value` items of a dict. -/
def dumpsFields : List (Str × Json) → Str
  | [] => []
  | [(k, v)] => dumpStr k ++ ':' :: ' ' :: Json.dumps v
  | (k, v) :: f :: rest =>
      dumpStr k ++ ':' :: ' ' :: Json.dumps v ++ S ", " ++
        dumpsFields (f :: rest)

end

/-- Serialization of `build_modal_metadata`'s dict
`{"original_text": ..., "conversation": [...]}`. -/
def metaDumps (truncated : Str) (conv : List Json) : Str :=
  Json.dumps (.obj [(S "original_text", .str truncated),
                    (S "conversation", .arr conv)])

/-- The `while len(result) > 2900 and data["conversation"]` loop of
`build_modal_metadata`: drop the oldest conversation entry while the
serialization is too long. -/
def bmmLoop (truncated : Str) : List Json → Str
  | [] => metaDumps truncated []
  | c :: rest =>
      let r := metaDumps truncated (c :: rest)
      if r.length > 2900 then bmmLoop truncated rest else r

/-- `slack_app.build_modal_metadata`: truncate the original text to 800
characters and drop oldest conversation entries while the JSON exceeds
2900 characters. -/
def build_modal_metadata (original_text : Str) (conversation : List Json) :
    Str :=
  bmmLoop (original_text.take 800) conversation

/-- Python's substring test `needle in hay`. -/
def isSubstr : Str → Str → Bool
  | needle, [] => needle.isEmpty
  | needle, hay@(_ :: rest) => needle.isPrefixOf hay || isSubstr needle rest

/-- One step of `re.sub(r"<[^>]+>", " ", raw)`, written as a scanner: a
pending open angle bracket buffers characters until a `>` closes the tag
(at least one character inside), which is replaced by a single space;
an immediately following `>` or the end of input means no match and the
buffered text is emitted verbatim. -/
def stripTagsGo : Option Str → Str → Str
  | none, [] => []
  | none, c :: rest =>
      if c = '<' then stripTagsGo (some []) rest else c :: stripTagsGo none rest
  | some buf, [] => '<' :: buf.reverse
  | some buf, c :: rest =>
      if c = '>' then
        if buf.isEmpty then '<' :: '>' :: stripTagsGo none rest
        else ' ' :: stripTagsGo none rest
      else stripTagsGo (some (c :: buf)) rest

/-- `re.sub(r"<[^>]+>", " ", raw)`: strip HTML tags. -/
def stripTags (s : Str) : Str := stripTagsGo none s

/-- `re.sub(r"\s+", " ", text)`: collapse whitespace runs to one space.
The flag records whether the previous character was whitespace. -/
def collapseWs : Bool → Str → Str
  | _, [] => []
  | inRun, c :: rest =>
      if pySpace c then
        if inRun then collapseWs true rest else ' ' :: collapseWs true rest
      else c :: collapseWs false rest

/-- `slack_app.fetch_url_content`: fetch a URL (network modelled by the
oracle `httpGet`, `none` meaning any exception, which the source turns
into `""`), strip HTML tags, collapse whitespace, strip, cap at 2000. -/
def fetch_url_content (httpGet : Str → Option Str) (url : Str) : Str :=
  match httpGet url with
  | none => []
  | some raw => (pyStrip (collapseWs false (stripTags raw))).take 2000

/-- Try to match `https?://\S+` at the start of the input; on success
return the match and the remaining input. -/
def matchUrlAt (l : Str) : Option (Str × Str) :=
  let scheme :=
    if (S "https://").isPrefixOf l then some (S "https://")
    else if (S "http://").isPrefixOf l then some (S "http://")
    else none
  match scheme with
  | none => none
  | some sch =>
      let rest := l.drop sch.length
      let run := rest.takeWhile (fun c => !pySpace c)
      if run.isEmpty then none
      else some (sch ++ run, rest.dropWhile (fun c => !pySpace c))

/-- `re.findall(r"https?://\S+", text)`: scan left to right for
non-overlapping URL matches.  The fuel (instantiated with the input
length, which each step strictly consumes) keeps the recursion
structural. -/
def findUrlsF : Nat → Str → List Str
  | 0, _ => []
  | _ + 1, [] => []
  | fuel + 1, c :: rest =>
      match matchUrlAt (c :: rest) with
      | some (u, rem) => u :: findUrlsF fuel rem
      | none => findUrlsF fuel rest

/-- `re.findall(r"https?://\S+", text)`. -/
def findUrls (s : Str) : List Str := findUrlsF s.length s

/-- The characters stripped from a matched URL
(`url.rstrip(">|)")`). -/
def urlJunk : Str := ['>', '|', ')']

/-- The `for url in urls[:3]` loop body of `extract_message_text`: clean
the URL, skip slack.com links, fetch, and append non-empty content. -/
def fetchLoop (httpGet : Str → Option Str) (text : Str) : List Str → Str
  | [] => text
  | u :: rest =>
      let u' := pyRstrip urlJunk u
      if isSubstr (S "slack.com") u' then fetchLoop httpGet text rest
      else
        let content := fetch_url_content httpGet u'
        if content.isEmpty then fetchLoop httpGet text rest
        else
          fetchLoop httpGet
            (text ++ S "\n\n[Content from " ++ u' ++ S "]:\n" ++ content) rest

/-- The `(url, content)` pairs actually appended by `fetchLoop`, in
order. -/
def fetchedPairs (httpGet : Str → Option Str) : List Str → List (Str × Str)
  | [] => []
  | u :: rest =>
      let u' := pyRstrip urlJunk u
      if isSubstr (S "slack.com") u' then fetchedPairs httpGet rest
      else
        let content := fetch_url_content httpGet u'
        if content.isEmpty then fetchedPairs httpGet rest
        else (u', content) :: fetchedPairs httpGet rest

/-- A downloaded image, as returned by `download_slack_image`
(`{"base64": ..., "mime_type": ...}`). -/
structure Image where
  base64 : Str
  mime_type : Str
deriving DecidableEq

/-- Base64 alphabet character. -/
def b64Char (n : Nat) : Char :=
  if n < 26 then Char.ofNat (65 + n)
  else if n < 52 then Char.ofNat (97 + (n - 26))
  else if n < 62 then Char.ofNat (48 + (n - 52))
  else if n = 62 then '+'
  else '/'

/-- `base64.b64encode(...).decode()` over a byte list (each byte reduced
mod 256). -/
def b64encode : List Nat → Str
  | [] => []
  | [a] =>
      let a := a % 256
      [b64Char (a / 4), b64Char (a % 4 * 16), '=', '=']
  | [a, b] =>
      let a := a % 256
      let b := b % 256
      [b64Char (a / 4), b64Char (a % 4 * 16 + b / 16), b64Char (b % 16 * 4), '=']
  | a :: b :: c :: rest =>
      let a := a % 256
      let b := b % 256
      let c := c % 256
      b64Char (a / 4) :: b64Char (a % 4 * 16 + b / 16) ::
        b64Char (b % 16 * 4 + c / 64) :: b64Char (c % 64) ::
        b64encode rest

/-- `slack_app.IMAGE_MIME_TYPES`. -/
def IMAGE_MIME_TYPES : List Str :=
  [S "image/png", S "image/jpeg", S "image/gif", S "image/webp"]

/-- `slack_app.download_slack_image`: check the mimetype, pick
`url_private_download or url_private`, download (oracle `httpBytes`,
`none` meaning any exception) and base64-encode. -/
def download_slack_image (httpBytes : Str → Option (List Nat))
    (file_info : Json) : Option Image :=
  let mime := file_info.getStrD (S "mimetype") []
  if !IMAGE_MIME_TYPES.contains mime then none
  else
    let dl := file_info.getStrD (S "url_private_download") []
    let url := if dl.isEmpty then file_info.getStrD (S "url_private") [] else dl
    if url.isEmpty then none
    else
      match httpBytes url with
      | none => none
      | some bytes => some ⟨b64encode bytes, mime⟩

/-- The attachment fields scanned by `extract_message_text`, in source
order. -/
def attachmentFieldNames : List Str := [S "text", S "pretext", S "title"]

/-- The `attachment_parts` accumulated by `extract_message_text`: for
each attachment, each of `text`/`pretext`/`title` that is non-empty and
not already a substring of the (stripped) message text. -/
def attachmentParts (message : Json) (base : Str) : List Str :=
  (message.getArrD (S "attachments") []).flatMap fun att =>
    attachmentFieldNames.filterMap fun f =>
      let v := att.getStrD f []
      if !v.isEmpty && !isSubstr v base then some v else none

/-- The message text after appending the attachment parts
(the state of `text` just before the URL loop). -/
def textWithAttachments (message : Json) : Str :=
  let base := pyStrip (message.getStrD (S "text") [])
  let parts := attachmentParts message base
  if parts.isEmpty then base
  else base ++ S "\n\n" ++ List.intercalate (S "\n\n") parts

/-- `slack_app.extract_message_text`: returns `(text, images)`.  The
network is the pair of oracles `httpGet` (URL fetch) and `httpBytes`
(image download); `clientPresent` models the `client` argument being
non-`None`. -/
def extract_message_text (httpGet : Str → Option Str)
    (httpBytes : Str → Option (List Nat)) (message : Json)
    (clientPresent : Bool) : Str × List Image :=
  let t := textWithAttachments message
  let urls := findUrls t
  let text := fetchLoop httpGet t (urls.take 3)
  let images :=
    if clientPresent then
      (message.getArrD (S "files") []).filterMap (download_slack_image httpBytes)
    else []
  (text, images)

/-- A Slack Block Kit block, reduced to the parts the handlers build:
mrkdwn section blocks, dividers, and the follow-up input block (static
chrome like titles and placeholders is omitted). -/
inductive Block where
  | sec (text : Str)
  | divider
  | input (block_id : Str) (action_id : Str)
deriving DecidableEq

/-- The section-header alternatives of the
`re.split(r"(?=\*(?:TLDR|Technical Terms|Abbreviations|Here's What It
Means)\*)", ...)` pattern. -/
def sectionHeads : List Str :=
  [S "*TLDR*", S "*Technical Terms*", S "*Abbreviations*",
   S "*Here" ++ [apos] ++ S "s What It Means*"]

/-- Does one of the section headers start here (the zero-width lookahead
of the split pattern)? -/
def isSectionStart (l : Str) : Bool := sectionHeads.any (fun h => h.isPrefixOf l)

/-- `re.split` on the zero-width lookahead: cut the input before every
position where a section header starts. -/
def splitSectionsGo : Str → Str → List Str
  | acc, [] => [acc.reverse]
  | acc, c :: rest =>
      if isSectionStart (c :: rest) then
        acc.reverse :: splitSectionsGo [c] rest
      else splitSectionsGo (c :: acc) rest

/-- `section.rfind("\n", 0, 2900)` restricted to the first 2900
characters: index of the last newline, if any. -/
def lastNl : Str → Option Nat
  | [] => none
  | c :: rest =>
      match lastNl rest with
      | some i => some (i + 1)
      | none => if c = '\n' then some 0 else none

/-- The cut point chosen by the chunking loop of
`split_explanation_blocks`: the last newline before 2900, or 2900 when
there is none or it sits before index 100. -/
def chunkCut (sec : Str) : Nat :=
  match lastNl (sec.take 2900) with
  | some i => if i < 100 then 2900 else i
  | none => 2900

/-- The `while len(section) > 2900` chunking loop.  Every iteration cuts
at least 100 characters, so fuel `length + 1` (used by `chunkSection`)
never runs out. -/
def chunkF : Nat → Str → List Str
  | 0, _ => []
  | fuel + 1, sec =>
      if sec.length > 2900 then
        let cut := chunkCut sec
        sec.take cut :: chunkF fuel (pyStrip (sec.drop cut))
      else if sec.isEmpty then [] else [sec]

/-- Chunk one (already stripped) section into pieces of at most 2900
characters. -/
def chunkSection (sec : Str) : List Str := chunkF (sec.length + 1) sec

/-- `slack_app.split_explanation_blocks`: split on section headers,
strip, drop empties, chunk long sections, and wrap everything in mrkdwn
section blocks. -/
def split_explanation_blocks (explanation : Str) : List Block :=
  ((splitSectionsGo [] explanation).map pyStrip).flatMap fun sec =>
    if sec.isEmpty then [] else (chunkSection sec).map Block.sec

/-- The 500-character preview `f"{t[:500]}{'...' if len(t) > 500 else ''}"`. -/
def preview500 (t : Str) : Str :=
  t.take 500 ++ (if t.length > 500 then S "..." else [])

/-- `slack_app.format_explanation_blocks`. -/
def format_explanation_blocks (original_text explanation : Str) : List Block :=
  Block.sec (S "*Original message:*\n>" ++ preview500 original_text) ::
    Block.divider :: split_explanation_blocks explanation

/-- A modal view, reduced to callback id, private metadata and blocks
(static chrome like titles and buttons is omitted). -/
structure View where
  callback_id : Option Str
  private_metadata : Option Str
  blocks : List Block
deriving DecidableEq

/-- The inline `\x7b"type": "modal", ..., "blocks": [section text]\x7d`
modals used for loading, confirmation and fallback states. -/
def simpleModal (text : Str) : View := ⟨none, none, [Block.sec text]⟩

/-- `slack_app.build_explanation_modal_view`: original-message preview,
divider, explanation blocks, previous Q&A, divider and the follow-up
input, with `build_modal_metadata` as private metadata.  (`entry['content']`
is modelled as a defaulting string read.) -/
def build_explanation_modal_view (original_text explanation : Str)
    (conversation : List Json) : View :=
  let blocks :=
    Block.sec (S "*Original message:*\n>" ++ preview500 original_text) ::
      Block.divider :: split_explanation_blocks explanation
  let convBlocks := conversation.flatMap fun entry =>
    if isStrV (entry.get (S "role")) (S "user") then
      [Block.divider, Block.sec (S "*You asked:* " ++ entry.getStrD (S "content") [])]
    else if isStrV (entry.get (S "role")) (S "assistant") then
      [Block.sec (entry.getStrD (S "content") [])]
    else []
  ⟨some (S "eli5_followup"),
   some (build_modal_metadata original_text conversation),
   blocks ++ convBlocks ++
     [Block.divider, Block.input (S "followup_block") (S "followup_input")]⟩

/-- Observable calls a handler makes against Slack or the AI provider. -/
inductive Effect where
  | viewsOpen (view : View)
  | viewsUpdate (view_id : Json) (view : View)
  | postMessage (channel : Str) (thread_ts : Option Json) (text : Str)
      (blocks : Option (List Block))
  | conversationsOpen (user : Str)
  | conversationsHistory (channel : Str)
  | aiExplain
  | aiChat

/-- `slack_app.update_modal_with_explanation`. -/
def update_modal_with_explanation (view_id : Str)
    (original_text explanation : Str) : Effect :=
  .viewsUpdate (.str view_id) (build_explanation_modal_view original_text explanation [])

/-- "I couldn't find any text to explain in that message." -/
def couldntFindText : Str :=
  S "I couldn" ++ [apos] ++ S "t find any text to explain in that message."

/-- The fallback rendered by `handle_shortcut_async` when explanation
generation raises: `"Sorry, I had trouble generating an explanation.\n\n`"
plus the first 200 characters of `str(exc)` in backticks. -/
def shortcutFallbackText (e : Str) : Str :=
  S "Sorry, I had trouble generating an explanation.\n\n`" ++ e.take 200 ++ S "`"

/-- ":white_check_mark: Explanation posted to the channel!" -/
def postedConfirmText : Str := S ":white_check_mark: Explanation posted to the channel!"

/-- The fallback rendered by `handle_explain_jargon_lazy`. -/
def lazyFallbackText : Str :=
  S "Sorry, I had trouble generating an explanation. Please try again."

/-- The fallback posted by `handle_dm_event`. -/
def dmFallbackText : Str :=
  S "Sorry, I had trouble processing that. Could you try again?"

/-- The fallback answer used by `handle_followup_request`. -/
def followupFallbackText : Str :=
  S "Sorry, I had trouble with that question. Try asking differently!"

/-- The `text, images = extract_message_text(payload.get("message", \x7b\x7d),
client=client)` step shared by the shortcut handlers. -/
def shortcutExtract (httpGet : Str → Option Str)
    (httpBytes : Str → Option (List Nat)) (payload : Json) : Str × List Image :=
  extract_message_text httpGet httpBytes ((payload.get (S "message")).getD (.obj [])) true

/-- `api/index.handle_shortcut_async`.  Oracles: network fetch/download
(for `extract_message_text`), `openModal` (the view id returned by
`open_loading_modal`, `none` meaning `views_open` raised — caught by the
`except ... return`), `loadingMsg` (the `random.choice` pick),
`explain` (the outcome of `get_explanation`, `.error` meaning it raised)
and `postResult` (the outcome of the public `chat_postMessage`).  Returns
the effects and whether an exception escaped the handler. -/
def handle_shortcut_async (httpGet : Str → Option Str)
    (httpBytes : Str → Option (List Nat)) (openModal : Option Str)
    (loadingMsg : Str) (explain : Str → List Image → Except Str Str)
    (postResult : Except Str Unit) (payload : Json) : List Effect × Bool :=
  let message := (payload.get (S "message")).getD (.obj [])
  let te := shortcutExtract httpGet httpBytes payload
  let channel_id := ((payload.get (S "channel")).getD (.obj [])).getStrD (S "id") []
  let openEff := Effect.viewsOpen (simpleModal loadingMsg)
  match openModal with
  | none => ([openEff], false)
  | some view_id =>
      if te.1.isEmpty && te.2.isEmpty then
        ([openEff, .viewsUpdate (.str view_id) (simpleModal couldntFindText)], false)
      else
        match explain te.1 te.2 with
        | .error e =>
            ([openEff, .aiExplain,
              .viewsUpdate (.str view_id) (simpleModal (shortcutFallbackText e))], false)
        | .ok explanation =>
            if isStrV (payload.get (S "callback_id")) (S "explain_jargon_public") &&
               !channel_id.isEmpty then
              let postEff := Effect.postMessage channel_id (message.get (S "ts"))
                explanation (some (format_explanation_blocks te.1 explanation))
              match postResult with
              | .ok _ =>
                  ([openEff, .aiExplain, postEff,
                    .viewsUpdate (.str view_id) (simpleModal postedConfirmText)], false)
              | .error m =>
                  if isSubstr (S "not_in_channel") m then
                    ([openEff, .aiExplain, postEff,
                      update_modal_with_explanation view_id te.1 explanation], false)
                  else
                    ([openEff, .aiExplain, postEff,
                      .viewsUpdate (.str view_id) (simpleModal (shortcutFallbackText m))], false)
            else
              ([openEff, .aiExplain,
                update_modal_with_explanation view_id te.1 explanation], false)

/-- `slack_app.handle_explain_jargon_lazy`.  Same oracles as
`handle_shortcut_async`; here `open_loading_modal` is not guarded, so a
raise there escapes the handler (second component `true`). -/
def handle_explain_jargon_lazy (httpGet : Str → Option Str)
    (httpBytes : Str → Option (List Nat)) (openModal : Option Str)
    (loadingMsg : Str) (explain : Str → List Image → Except Str Str)
    (shortcut : Json) : List Effect × Bool :=
  let te := shortcutExtract httpGet httpBytes shortcut
  let openEff := Effect.viewsOpen (simpleModal loadingMsg)
  match openModal with
  | none => ([openEff], true)
  | some view_id =>
      if te.1.isEmpty && te.2.isEmpty then
        ([openEff, .viewsUpdate (.str view_id) (simpleModal couldntFindText)], false)
      else
        match explain te.1 te.2 with
        | .ok explanation =>
            ([openEff, .aiExplain,
              update_modal_with_explanation view_id te.1 explanation], false)
        | .error _ =>
            ([openEff, .aiExplain,
              .viewsUpdate (.str view_id) (simpleModal lazyFallbackText)], false)

/-- `[a-zA-Z0-9-]`, the subdomain character class of
`SLACK_MESSAGE_LINK_RE`. -/
def isSubdomainChar (c : Char) : Bool := c.isAlpha || c.isDigit || c = '-'

/-- `[A-Z0-9]`, the channel-id character class of
`SLACK_MESSAGE_LINK_RE`. -/
def isChanChar (c : Char) : Bool := c.isUpper || c.isDigit

/-- Match `SLACK_MESSAGE_LINK_RE`
(`https?://[a-zA-Z0-9\-]+\.slack\.com/archives/([A-Z0-9]+)/p(\d+)`) at
the start of the input, returning the two capture groups.  Each `+`-class
is followed by a character outside the class, so greedy matching needs no
backtracking. -/
def matchSlackLinkAt (l : Str) : Option (Str × Str) :=
  let schemeLen :=
    if (S "https://").isPrefixOf l then some 8
    else if (S "http://").isPrefixOf l then some 7
    else none
  match schemeLen with
  | none => none
  | some n =>
      let r1 := l.drop n
      let sub := r1.takeWhile isSubdomainChar
      if sub.isEmpty then none
      else
        let r2 := r1.drop sub.length
        if (S ".slack.com/archives/").isPrefixOf r2 then
          let r3 := r2.drop 20
          let chan := r3.takeWhile isChanChar
          if chan.isEmpty then none
          else
            let r4 := r3.drop chan.length
            if (S "/p").isPrefixOf r4 then
              let ds := (r4.drop 2).takeWhile Char.isDigit
              if ds.isEmpty then none else some (chan, ds)
            else none
        else none

/-- `SLACK_MESSAGE_LINK_RE.search`: first match scanning left to right
(fuel is the input length; one character is consumed per step). -/
def searchSlackLinkF : Nat → Str → Option (Str × Str)
  | 0, _ => none
  | _ + 1, [] => none
  | fuel + 1, l@(_ :: rest) =>
      match matchSlackLinkAt l with
      | some m => some m
      | none => searchSlackLinkF fuel rest

/-- `SLACK_MESSAGE_LINK_RE.search(user_message)`. -/
def searchSlackLink (s : Str) : Option (Str × Str) := searchSlackLinkF s.length s

/-- `slack_app.fetch_slack_message`: rebuild the message timestamp from
the `p<digits>` form and read one message (the `conversations_history`
oracle returns the message list; an API exception is modelled as `[]`,
which the source also maps to `None`). -/
def fetch_slack_message (historyLatest : Str → Str → List Json)
    (chan rawTs : Str) : Option Str :=
  let message_ts := rawTs.take 10 ++ ['.'] ++ rawTs.drop 10
  match historyLatest chan message_ts with
  | [] => none
  | m :: _ => some (m.getStrD (S "text") [])

/-- A `\x7b"role": ..., "content": ...\x7d` chat message dict. -/
def mkMsg (role content : Str) : Json :=
  .obj [(S "role", .str role), (S "content", .str content)]

/-- "Here's that message: ..." reply for a linked Slack message. -/
def hereMsgText (linked explanation : Str) : Str :=
  S "Here" ++ [apos] ++ S "s that message:\n>" ++ preview500 linked ++
    S "\n\n" ++ explanation ++ S "\n\nFeel free to ask me follow-up questions!"

/-- "I couldn't fetch that message. ..." reply. -/
def couldntFetchText : Str :=
  S "I couldn" ++ [apos] ++
    S "t fetch that message. I might not have access to that channel. Try copying the message text and sending it to me directly!"

/-- The chat history sent to `chat_response` by `handle_dm_event`:
`reversed(history[1:])` classified by `bot_id`/`subtype`, plus the new
user message. -/
def dmHistoryMessages (history : List Json) (user_message : Str) : List Json :=
  ((history.drop 1).reverse.filterMap fun msg =>
    if truthyO (msg.get (S "bot_id")) then
      some (mkMsg (S "assistant") (msg.getStrD (S "text") []))
    else if truthyO (msg.get (S "subtype")) then none
    else some (mkMsg (S "user") (msg.getStrD (S "text") []))) ++
    [mkMsg (S "user") user_message]

/-- `event.get("channel")` in `handle_dm_event`, modelled as a defaulting
string read. -/
def dmChannel (event : Json) : Str := event.getStrD (S "channel") []

/-- `event.get("text", "").strip()` in `handle_dm_event`. -/
def dmUserMessage (event : Json) : Str := pyStrip (event.getStrD (S "text") [])

/-- `api/index.handle_dm_event`.  Oracles: `historyLatest` (the
single-message `conversations_history` used for links), `history10` (the
10-message history), `explain`/`chat` (AI outcomes, `.error` meaning the
call raised).  The channel is modelled as a defaulting string read. -/
def handle_dm_event (historyLatest : Str → Str → List Json)
    (history10 : Str → List Json) (explain : Str → List Image → Except Str Str)
    (chat : List Json → Except Str Str) (event : Json) : List Effect × Bool :=
  let channel_id := dmChannel event
  let user_message := dmUserMessage event
  if user_message.isEmpty || channel_id.isEmpty then ([], false)
  else
    match searchSlackLink user_message with
    | some (chan, rawTs) =>
        let histEff := Effect.conversationsHistory chan
        match fetch_slack_message historyLatest chan rawTs with
        | some linked =>
            if linked.isEmpty then
              ([histEff, .postMessage channel_id none couldntFetchText none], false)
            else
              match explain linked [] with
              | .ok expl =>
                  ([histEff, .aiExplain,
                    .postMessage channel_id none (hereMsgText linked expl) none], false)
              | .error _ =>
                  ([histEff, .aiExplain,
                    .postMessage channel_id none dmFallbackText none], false)
        | none =>
            ([histEff, .postMessage channel_id none couldntFetchText none], false)
    | none =>
        let messages := dmHistoryMessages (history10 channel_id) user_message
        match chat messages with
        | .ok response =>
            ([.conversationsHistory channel_id, .aiChat,
              .postMessage channel_id none response none], false)
        | .error _ =>
            ([.conversationsHistory channel_id, .aiChat,
              .postMessage channel_id none dmFallbackText none], false)

/-- Digits (with single interior underscores) of a Python integer
literal, accumulating the value. -/
def pyDigits : Nat → Str → Option Nat
  | acc, [] => some acc
  | acc, '_' :: c :: rest =>
      if c.isDigit then pyDigits (acc * 10 + (c.toNat - 48)) rest else none
  | _, ['_'] => none
  | acc, c :: rest =>
      if c.isDigit then pyDigits (acc * 10 + (c.toNat - 48)) rest else none

/-- The digit core of `int()`: at least one digit, underscores only
between digits. -/
def pyIntCore : Str → Option Nat
  | [] => none
  | c :: rest => if c.isDigit then pyDigits (c.toNat - 48) rest else none

/-- Python `int(s)` over ASCII decimal literals: strip whitespace,
optional sign, digits; `none` models the `ValueError` raise. -/
def pyInt (s : Str) : Option Int :=
  match pyStrip s with
  | '+' :: r => (pyIntCore r).map Int.ofNat
  | '-' :: r => (pyIntCore r).map (fun n => -(n : Int))
  | r => (pyIntCore r).map Int.ofNat

/-- `api/index.verify_slack_signature`.  `hmacHex` is the
`hmac.new(..., hashlib.sha256).hexdigest()` oracle (key, message ↦ hex
digest); `now` is `time.time()` in whole seconds.  The result is `none`
when the code raises (`int(timestamp)` on a non-numeric non-empty
header), `some b` otherwise. -/
def verify_slack_signature (hmacHex : Str → Str → Str) (now : Int)
    (signing_secret timestamp signature body : Str) : Option Bool :=
  let ts? : Option Int := if timestamp.isEmpty then some 0 else pyInt timestamp
  match ts? with
  | none => none
  | some tv =>
      if (now - tv).natAbs > 300 then some false
      else
        let sig_basestring := S "v0:" ++ timestamp ++ [':'] ++ body
        let my_signature := S "v0=" ++ hmacHex signing_secret sig_basestring
        some (my_signature == signature)

/-- `\x7b"ok": True\x7d`. -/
def okJson : Json := .obj [(S "ok", .bool true)]

/-- HTTP-level outcomes of the Flask handlers. -/
inductive Response where
  | json (j : Json)
  | empty200
  | http403
  | error500
  | boltFallback

/-- The `data.get("secret") != os.environ.get("SLACK_SIGNING_SECRET")`
check of `handle_followup_request` (note JSON `null` and a missing key
both become Python `None`, and an unset variable is also `None`). -/
def followupSecretOk (body : Json) (env_secret : Option Str) : Bool :=
  let v := match body.get (S "secret") with
    | some .null => none
    | x => x
  match v, env_secret with
  | none, none => true
  | some (.str s), some e => s == e
  | _, _ => false

/-- `api/index.handle_followup_request`.  `env_secret` is
`os.environ.get("SLACK_SIGNING_SECRET")`; `chat` is the `chat_response`
oracle (`.error` meaning it raised, which the source converts into the
fallback answer).  Missing keys (`data["view_id"]` etc. raising
`KeyError`) and ill-typed fields are modelled as the 500 response. -/
def handle_followup_request (env_secret : Option Str)
    (chat : List Json → Except Str Str) (body : Json) : Response × List Effect :=
  if !followupSecretOk body env_secret then (.http403, [])
  else
    match body.get (S "view_id"), body.get (S "question"),
        body.get (S "original_text"), body.get (S "conversation"),
        body.get (S "initial_explanation") with
    | some view_id, some (.str question), some (.str original_text),
        some (.arr conversation), some (.str initial_explanation) =>
        let messages :=
          mkMsg (S "user") (S "Original message to explain:\n" ++ original_text) ::
            conversation ++ [mkMsg (S "user") question]
        let answer := match chat messages with
          | .ok a => a
          | .error _ => followupFallbackText
        let updated_conv :=
          conversation ++ [mkMsg (S "user") question, mkMsg (S "assistant") answer]
        let final_view :=
          build_explanation_modal_view original_text initial_explanation updated_conv
        (.json okJson, [.aiChat, .viewsUpdate view_id final_view])
    | _, _, _, _, _ => (.error500, [])

/-- `api/index.health_check`. -/
def health_check : Response := .json okJson

/-- The `for block in blocks` scan of `parse_view_submission` collecting
the explanation between the first and second dividers. -/
def initialExplanationParts : Bool → List Json → List Str
  | _, [] => []
  | false, b :: rest =>
      if isStrV (b.get (S "type")) (S "divider") then
        initialExplanationParts true rest
      else initialExplanationParts false rest
  | true, b :: rest =>
      if isStrV (b.get (S "type")) (S "divider") then []
      else
        let t := ((b.get (S "text")).getD (.obj [])).getStrD (S "text") []
        if t.isEmpty then initialExplanationParts true rest
        else t :: initialExplanationParts true rest

/-- `api/index.parse_view_submission`: returns
`(view_id, question, original_text, conversation, initial_explanation)`
or `none`.  `loads` is the `json.loads` oracle (`none` meaning it raised,
which the source turns into `\x7b\x7d`). -/
def parse_view_submission (loads : Str → Option Json) (payload : Json) :
    Option (Json × Str × Str × List Json × Str) :=
  let view := (payload.get (S "view")).getD (.obj [])
  if !isStrV (view.get (S "callback_id")) (S "eli5_followup") then none
  else
    let view_id := (view.get (S "id")).getD .null
    let metadata := view.getStrD (S "private_metadata") (S "\x7b\x7d")
    let data := (loads metadata).getD (.obj [])
    let original_text := data.getStrD (S "original_text") []
    let conversation := data.getArrD (S "conversation") []
    let values := ((view.get (S "state")).getD (.obj [])).getD (S "values") (.obj [])
    let followup_block := values.getD (S "followup_block") (.obj [])
    let followup_input := followup_block.getD (S "followup_input") (.obj [])
    let question := pyStrip (followup_input.getStrD (S "value") [])
    if question.isEmpty then none
    else
      let blocks := view.getArrD (S "blocks") []
      let initial_explanation :=
        List.intercalate (S "\n\n") (initialExplanationParts false blocks)
      some (view_id, question, original_text, conversation, initial_explanation)

/-- The event handlers `slack_events` can hand work to. -/
inductive HandlerKind where
  | shortcut
  | blockAction
  | viewClosed
  | dmMessage
  | reaction
deriving DecidableEq

/-- How `slack_events` runs a handler: on a background thread joined with
a timeout (`threading.Thread` + `t.join(timeout=...)`), or synchronously
in the request thread. -/
inductive Dispatch where
  | thread (h : HandlerKind) (joinTimeout : Nat)
  | sync (h : HandlerKind)
deriving DecidableEq

/-- An inbound Flask request, reduced to the fields `slack_events`
reads: the `X-Slack-Retry-Num` header, the content type, the parsed JSON
body (`request.get_json(silent=True)`), the form `payload` field and the
host. -/
structure Request where
  retryNum : Option Str
  contentType : Option Str
  body : Option Json
  formPayload : Option Str
  host : Str

/-- The `response_action: errors` body returned for an empty follow-up
question. -/
def errorsResponseJson : Json :=
  .obj [(S "response_action", .str (S "errors")),
        (S "errors", .obj [(S "followup_block",
          .str (S "Please type a question first!"))])]

/-- The `if body.get("type") == "event_callback"` tail of
`slack_events`, reached when no interactive-payload branch returned. -/
def eventCallbackBranch (body : Json) : Response × List Dispatch :=
  if isStrV (body.get (S "type")) (S "event_callback") then
    let event := (body.get (S "event")).getD (.obj [])
    if isStrV (event.get (S "type")) (S "message") &&
       isStrV (event.get (S "channel_type")) (S "im") then
      if !truthyO (event.get (S "bot_id")) && !truthyO (event.get (S "subtype")) then
        (.json okJson, [.thread .dmMessage 25])
      else (.json okJson, [])
    else if isStrV (event.get (S "type")) (S "reaction_added") then
      (.json okJson, [.thread .reaction 2])
    else (.json okJson, [])
  else (.boltFallback, [])

/-- `api/index.slack_events`: retry suppression, URL verification,
interactive form payloads (shortcut / block actions / view submission /
view closed), direct event callbacks, and the slack-bolt fallback.
In the valid view-submission branch the source executes
`from slack_app import build_explanation_modal_view, THINKING_MESSAGES`,
but `slack_app` defines only `LOADING_MESSAGES`, so the import raises
`ImportError` before any observable work and Flask answers 500. -/
def slack_events (loads : Str → Option Json) (req : Request) :
    Response × List Dispatch :=
  let body := req.body.getD (.obj [])
  if truthyS req.retryNum then (.json okJson, [])
  else if isStrV (body.get (S "type")) (S "url_verification") then
    (.json (.obj [(S "challenge", (body.get (S "challenge")).getD .null)]), [])
  else if (match req.contentType with
           | some ct => isSubstr (S "x-www-form-urlencoded") ct
           | none => false) then
    match loads (req.formPayload.getD (S "\x7b\x7d")) with
    | none => (.error500, [])
    | some payload =>
        let pt := payload.get (S "type")
        if isStrV pt (S "shortcut") || isStrV pt (S "message_action") then
          (.empty200, [.thread .shortcut 25])
        else if isStrV pt (S "block_actions") then
          (.empty200, [.thread .blockAction 10])
        else if isStrV pt (S "view_submission") then
          match parse_view_submission loads payload with
          | some _ => (.error500, [])
          | none => (.json errorsResponseJson, [])
        else if isStrV pt (S "view_closed") then
          (.empty200, [.sync .viewClosed])
        else eventCallbackBranch body
  else eventCallbackBranch body

/-- Spec-side (from the claim's words): "the first 3 non-slack.com URLs
found in the text", after the source's `rstrip(">|)")` cleaning. -/
def claimFetchCandidates (t : Str) : List Str :=
  (((findUrls t).map (pyRstrip urlJunk)).filter
    (fun u => !isSubstr (S "slack.com") u)).take 3

/-- The claimed invariant of one explanation block: a section block whose
mrkdwn text is non-empty and at most 2900 characters long. -/
def blockOk : Block → Bool
  | .sec t => !t.isEmpty && t.length ≤ 2900
  | _ => false

/-- The `(handler, join timeout)` pairs of the background threads spawned
by a dispatch list. -/
def threadJoins (ds : List Dispatch) : List (HandlerKind × Nat) :=
  ds.filterMap fun d =>
    match d with
    | .thread h t => some (h, t)
    | .sync _ => none

/-- The join timeouts named by the claim: 25s for shortcuts and DM
messages, 10s for block actions, 2s for reactions. -/
def expectedJoinTimeout : HandlerKind → Nat
  | .shortcut => 25
  | .blockAction => 10
  | .dmMessage => 25
  | .reaction => 2
  | .viewClosed => 0

/-- The `"\n\n[Content from {url}]:\n{content}"` section appended per
fetched URL. -/
def contentSection (p : Str × Str) : Str :=
  S "\n\n[Content from " ++ p.1 ++ S "]:\n" ++ p.2

/-- C1: a POST whose `X-Slack-Retry-Num` header carries a (non-empty)
retry number is answered with `\x7b"ok": true\x7d` at once and no handler is
dispatched: no shortcut, block action, view submission, message or
reaction processing happens for a retried delivery, whatever the content
type, body or form payload. -/
theorem slack_events_retry_ack (loads : Str → Option Json) (ct : Option Str)
    (body : Option Json) (fp : Option Str) (host : Str) (c : Char) (s : Str) :
    slack_events loads ⟨some (c :: s), ct, body, fp, host⟩ = (.json okJson, []) := rfl

/-- C6: `health_check` answers `\x7b"ok": true\x7d`, and a POST without a
retry header whose JSON body has type `url_verification` is answered with
a JSON body whose `challenge` field is the request body's `challenge`
field (JSON `null` when absent), whatever else the request carries. -/
theorem health_and_url_verification :
    health_check = .json okJson ∧
    ∀ (loads : Str → Option Json) (ct : Option Str) (fp : Option Str)
      (host : Str) (fields : List (Str × Json)),
      slack_events loads
        ⟨none, ct, some (.obj ((S "type", .str (S "url_verification")) :: fields)),
         fp, host⟩ =
      (.json (.obj [(S "challenge", (lookupField fields (S "challenge")).getD .null)]),
       []) :=
  ⟨rfl, fun _ _ _ _ _ => rfl⟩

/-- The dispatch lists the event-callback tail can produce. -/
theorem eventCallbackBranch_dispatch_cases (body : Json) :
    (eventCallbackBranch body).2 = [] ∨
    (eventCallbackBranch body).2 = [.thread .dmMessage 25] ∨
    (eventCallbackBranch body).2 = [.thread .reaction 2] := by
  unfold eventCallbackBranch
  dsimp only
  repeat' split
  all_goals simp

/-- The dispatch lists `slack_events` can produce. -/
theorem slack_events_dispatch_cases (loads : Str → Option Json) (req : Request) :
    (slack_events loads req).2 = [] ∨
    (slack_events loads req).2 = [.thread .shortcut 25] ∨
    (slack_events loads req).2 = [.thread .blockAction 10] ∨
    (slack_events loads req).2 = [.sync .viewClosed] ∨
    (slack_events loads req).2 = [.thread .dmMessage 25] ∨
    (slack_events loads req).2 = [.thread .reaction 2] := by
  unfold slack_events
  dsimp only
  repeat' split
  all_goals
    first
    | simp
    | (rcases eventCallbackBranch_dispatch_cases (req.body.getD (Json.obj []))
         with h | h | h <;> rw [h] <;> simp)

/-- C7: every request spawns at most one background worker thread, and a
spawned thread is joined with the claimed finite timeout: 25s for
shortcuts and DM messages, 10s for block actions, 2s for reactions. -/
theorem slack_events_thread_discipline (loads : Str → Option Json)
    (req : Request) :
    (threadJoins (slack_events loads req).2).length ≤ 1 ∧
    (threadJoins (slack_events loads req).2).all
      (fun p => p.2 == expectedJoinTimeout p.1) = true := by
  rcases slack_events_dispatch_cases loads req with h | h | h | h | h | h <;>
    rw [h] <;> exact ⟨by decide, by decide⟩

/-- C3 (code bug): for a `view_submission` whose view has callback id
`eli5_followup`, a non-empty follow-up question makes the source run
`from slack_app import build_explanation_modal_view, THINKING_MESSAGES`,
which raises `ImportError` (`slack_app` defines only `LOADING_MESSAGES`),
so Flask answers 500 instead of the claimed `response_action: update`
thinking view; the empty-question validation branch, in contrast, does
return `response_action: errors` with "Please type a question first!"
for `followup_block` as claimed. -/
theorem view_submission_crashes_on_thinking_import :
    slack_events
      (fun _ => some (Json.obj [(S "type", .str (S "view_submission")),
        (S "view", Json.obj [(S "callback_id", .str (S "eli5_followup")),
          (S "id", .str (S "V1")),
          (S "state", Json.obj [(S "values", Json.obj [(S "followup_block",
            Json.obj [(S "followup_input",
              Json.obj [(S "value", .str (S "what is ISR?"))])])])])])]))
      ⟨none, some (S "application/x-www-form-urlencoded"), none, some (S "p"), S "h"⟩ =
      (.error500, []) ∧
    slack_events
      (fun _ => some (Json.obj [(S "type", .str (S "view_submission")),
        (S "view", Json.obj [(S "callback_id", .str (S "eli5_followup")),
          (S "id", .str (S "V1")),
          (S "state", Json.obj [(S "values", Json.obj [(S "followup_block",
            Json.obj [(S "followup_input",
              Json.obj [(S "value", .str (S "   "))])])])])])]))
      ⟨none, some (S "application/x-www-form-urlencoded"), none, some (S "p"), S "h"⟩ =
      (.json errorsResponseJson, []) :=
  ⟨rfl, rfl⟩

/-- C10: `/api/followup` answers 403 with no Slack or AI call exactly
when the body's `secret` differs from the `SLACK_SIGNING_SECRET`
environment variable (`followupSecretOk` is that comparison, under which
a missing/null `secret` equals an unset variable); in particular with the
variable unset a body without `secret` passes the check. -/
theorem handle_followup_secret_gate :
    (∀ (env : Option Str) (chat : List Json → Except Str Str) (body : Json),
      ((handle_followup_request env chat body).1 = .http403 ∧
       (handle_followup_request env chat body).2 = []) ↔
      followupSecretOk body env = false) ∧
    ∀ chat : List Json → Except Str Str,
      (handle_followup_request none chat (.obj [])).1 ≠ .http403 := by
  constructor
  · intro env chat body
    constructor
    · rintro ⟨h1, -⟩
      by_contra hne
      have ht : followupSecretOk body env = true := by
        cases hx : followupSecretOk body env
        · exact absurd hx hne
        · rfl
      unfold handle_followup_request at h1
      rw [ht] at h1
      simp only [Bool.not_true] at h1
      rw [if_neg (by simp)] at h1
      split at h1 <;> simp_all
    · intro hf
      unfold handle_followup_request
      rw [hf]
      simp
  · intro chat
    have h : followupSecretOk (.obj []) none = true := rfl
    unfold handle_followup_request
    simp only [h, Bool.not_true]
    rw [if_neg (by simp)]
    split <;> simp

/-- Index returned by `lastNl` is a valid index. -/
theorem lastNl_lt (l : Str) (i : Nat) (h : lastNl l = some i) : i < l.length := by
  induction l generalizing i with
  | nil => simp [lastNl] at h
  | cons c rest ih =>
      cases hlr : lastNl rest with
      | some j =>
          have e : lastNl (c :: rest) = some (j + 1) := by rw [lastNl, hlr]
          rw [e] at h
          injection h with h'
          subst h'
          have := ih j hlr
          simp only [List.length_cons]
          omega
      | none =>
          by_cases hc : c = '\n'
          · have e : lastNl (c :: rest) = some 0 := by rw [lastNl, hlr]; simp [hc]
            rw [e] at h
            injection h with h'
            subst h'
            simp
          · have e : lastNl (c :: rest) = none := by rw [lastNl, hlr]; simp [hc]
            rw [e] at h
            exact Option.noConfusion h

/-- The chunking cut point always lies between 100 and 2900. -/
theorem chunkCut_bounds (sec : Str) :
    100 ≤ chunkCut sec ∧ chunkCut sec ≤ 2900 := by
  cases h : lastNl (sec.take 2900) with
  | none =>
      have e : chunkCut sec = 2900 := by unfold chunkCut; rw [h]
      rw [e]
      exact ⟨by omega, le_rfl⟩
  | some i =>
      have hi := lastNl_lt _ _ h
      rw [List.length_take] at hi
      by_cases hlt : i < 100
      · have e : chunkCut sec = 2900 := by unfold chunkCut; rw [h]; simp [hlt]
        rw [e]
        exact ⟨by omega, le_rfl⟩
      · have e : chunkCut sec = i := by unfold chunkCut; rw [h]; simp [hlt]
        rw [e]
        constructor <;> omega

/-- Every piece the chunking loop emits is non-empty and at most 2900
characters, whatever the fuel. -/
theorem chunkF_all (fuel : Nat) :
    ∀ sec : Str,
      ((chunkF fuel sec).all fun t => !t.isEmpty && t.length ≤ 2900) = true := by
  induction fuel with
  | zero => intro sec; rfl
  | succ fuel ih =>
      intro sec
      rw [chunkF]
      dsimp only
      split
      · next hlong =>
          have hb := chunkCut_bounds sec
          have hlen : (sec.take (chunkCut sec)).length = chunkCut sec := by
            rw [List.length_take]; omega
          have hne : sec.take (chunkCut sec) ≠ [] := by
            intro hn
            rw [hn] at hlen
            simp at hlen
            omega
          simp [List.all_cons, ih, List.isEmpty_iff, hne, hlen]
          omega
      · next hshort =>
          split
          · rfl
          · next hne =>
              simp [List.isEmpty_iff] at hne ⊢
              exact ⟨hne, by omega⟩

/-- C8: `split_explanation_blocks` (a total function, so it terminates)
returns only section blocks, each with non-empty mrkdwn text of at most
2900 characters. -/
theorem split_explanation_blocks_invariant (explanation : Str) :
    (split_explanation_blocks explanation).all blockOk = true := by
  rw [List.all_eq_true]
  intro b hb
  unfold split_explanation_blocks at hb
  rw [List.mem_flatMap] at hb
  obtain ⟨sec, -, hmem⟩ := hb
  split at hmem
  · simp at hmem
  · rw [List.mem_map] at hmem
    obtain ⟨t, ht, rfl⟩ := hmem
    have hall := chunkF_all (sec.length + 1) sec
    rw [List.all_eq_true] at hall
    have hok := hall t (by simpa [chunkSection] using ht)
    simpa [blockOk] using hok

/-- C9 (counterexample): the claim says `verify_slack_signature` is total
over all header strings and returns `False` rather than raising; but for
the header string `"x"` the source evaluates `int("x")`, which raises
`ValueError` (modelled as `none`), so the function is not total. -/
theorem verify_slack_signature_raises_counterexample :
    verify_slack_signature (fun _ _ => []) 1000000000 [] (S "x") [] [] = none := by
  decide

/-- C9 (amended): `verify_slack_signature` raises (returns `none`) when
the timestamp header is non-empty and not an integer literal; otherwise
it returns `False` when the timestamp (0 when absent or empty) is more
than 300 seconds from the current time, and else returns `True` iff the
`X-Slack-Signature` header equals `"v0=" + HMAC-SHA256-hex("v0:ts:body")`
under the signing secret. -/
theorem verify_slack_signature_amended (hmacHex : Str → Str → Str) (now : Int)
    (secret ts sig body : Str) :
    (ts ≠ [] → pyInt ts = none →
      verify_slack_signature hmacHex now secret ts sig body = none) ∧
    ∀ tv : Int, (if ts.isEmpty then some 0 else pyInt ts) = some tv →
      ((now - tv).natAbs > 300 →
        verify_slack_signature hmacHex now secret ts sig body = some false) ∧
      ((now - tv).natAbs ≤ 300 →
        verify_slack_signature hmacHex now secret ts sig body =
          some ((S "v0=" ++ hmacHex secret (S "v0:" ++ ts ++ [':'] ++ body)) == sig)) := by
  constructor
  · intro hne hp
    have hc : (if ts.isEmpty then some 0 else pyInt ts) = (none : Option Int) := by
      rw [if_neg (by simp [List.isEmpty_iff, hne])]
      exact hp
    unfold verify_slack_signature
    rw [hc]
  · intro tv htv
    constructor <;> intro hcmp <;> unfold verify_slack_signature <;> rw [htv] <;>
      dsimp only
    · rw [if_pos hcmp]
    · rw [if_neg (by omega)]

/-- Concrete instances of the amended C9 statement: a raising timestamp,
a fresh timestamp with matching signature, and a stale timestamp. -/
theorem verify_slack_signature_amended_witness :
    verify_slack_signature (fun _ _ => S "ab") 1000 [] (S "x") [] [] = none ∧
    verify_slack_signature (fun _ _ => S "ab") 1000 [] (S "1000") (S "v0=ab") [] =
      some true ∧
    verify_slack_signature (fun _ _ => S "ab") 2000 [] (S "1000") (S "v0=ab") [] =
      some false := by
  refine ⟨?_, ?_, ?_⟩
  · exact (verify_slack_signature_amended (fun _ _ => S "ab") 1000 [] (S "x") [] []).1
      (by decide) (by decide)
  · have h := ((verify_slack_signature_amended (fun _ _ => S "ab") 1000 [] (S "1000")
      (S "v0=ab") []).2 1000 (by decide)).2 (by decide)
    simpa using h
  · exact ((verify_slack_signature_amended (fun _ _ => S "ab") 2000 [] (S "1000")
      (S "v0=ab") []).2 1000 (by decide)).1 (by decide)

/-- Length of the escape expansion of a repeated character. -/
theorem length_flatMap_replicate (n : Nat) (c : Char) :
    ((List.replicate n c).flatMap escapeChar).length = n * (escapeChar c).length := by
  induction n with
  | zero => simp
  | succ k ih => simp [List.replicate_succ, ih, Nat.succ_mul]; omega

/-- Length of the metadata serialization with an empty conversation:
41 fixed characters plus the escaped original text. -/
theorem metaDumps_nil_length (t : Str) :
    (metaDumps t []).length = 41 + (t.flatMap escapeChar).length := by
  have h1 : ((S "original_text").flatMap escapeChar).length = 13 := by decide
  have h2 : ((S "conversation").flatMap escapeChar).length = 12 := by decide
  have h3 : (S ", ").length = 2 := by decide
  simp only [metaDumps, Json.dumps, dumpsFields, dumpsElems, dumpStr]
  simp [List.length_append, h1, h2, h3]
  omega

/-- C2 (counterexample): the claim bounds `build_modal_metadata` by
~3000 characters, but for an `original_text` of 400 supplementary-plane
code points (each serialized by `json.dumps` as a 12-character surrogate
pair escape) and an empty conversation the result is 4841 characters:
the loop can only drop conversation entries, never shorten the
800-character original-text prefix. -/
theorem build_modal_metadata_exceeds_limit :
    3000 < (build_modal_metadata (List.replicate 400 (Char.ofNat 65536)) []).length := by
  have e1 : build_modal_metadata (List.replicate 400 (Char.ofNat 65536)) [] =
      metaDumps (List.replicate 400 (Char.ofNat 65536)) [] := by
    unfold build_modal_metadata
    rw [List.take_of_length_le (by rw [List.length_replicate]; omega)]
    rfl
  rw [e1, metaDumps_nil_length, length_flatMap_replicate]
  have h12 : (escapeChar (Char.ofNat 65536)).length = 12 := by decide
  rw [h12]
  omega

/-- The truncation loop returns the serialization of some suffix of the
conversation, and its result exceeds 2900 characters only when the
conversation has been fully dropped. -/
theorem bmmLoop_spec (t : Str) (conv : List Json) :
    (∃ k, bmmLoop t conv = metaDumps t (conv.drop k)) ∧
    (bmmLoop t conv).length ≤ max 2900 (metaDumps t []).length := by
  induction conv with
  | nil => exact ⟨⟨0, rfl⟩, le_max_right _ _⟩
  | cons c rest ih =>
      rw [bmmLoop]
      split
      · obtain ⟨⟨k, hk⟩, hlen⟩ := ih
        exact ⟨⟨k + 1, hk⟩, hlen⟩
      · next hle =>
          exact ⟨⟨0, rfl⟩, le_max_of_le_left (by omega)⟩

/-- C2 (amended): `build_modal_metadata` truncates the original text to
its first 800 characters and drops oldest conversation entries while the
serialization exceeds 2900 characters; the result is the serialization of
the truncated text with some suffix of the conversation, and its length
is at most 2900 unless even the empty-conversation serialization is
longer (which bounds it instead). -/
theorem build_modal_metadata_amended (original_text : Str) (conversation : List Json) :
    (∃ k, build_modal_metadata original_text conversation =
       metaDumps (original_text.take 800) (conversation.drop k)) ∧
    (build_modal_metadata original_text conversation).length ≤
      max 2900 (metaDumps (original_text.take 800) []).length :=
  bmmLoop_spec (original_text.take 800) conversation

/-- Concrete instance of the C10 gate: a wrong secret gets 403 and no
effect. -/
theorem handle_followup_secret_gate_witness :
    (handle_followup_request (some (S "s")) (fun _ => .error []) (.obj [])).1 = .http403 ∧
    (handle_followup_request (some (S "s")) (fun _ => .error []) (.obj [])).2 = [] :=
  (handle_followup_secret_gate.1 (some (S "s")) (fun _ => .error []) (.obj [])).mpr
    (by decide)

/-- C4: whenever explanation or chat generation raises, the exception is
caught at the call site and a user-facing fallback is produced, and the
handler lets no such exception escape (`false` second component):
`handle_shortcut_async` and `handle_explain_jargon_lazy` render their
apologetic modal, and `handle_dm_event` (both in the plain-chat path and
in the linked-message path) posts its apologetic DM. -/
theorem handlers_catch_ai_exceptions :
    (∀ (hg : Str → Option Str) (hb : Str → Option (List Nat)) (vid lm : Str)
       (explain : Str → List Image → Except Str Str) (post : Except Str Unit)
       (payload : Json) (e : Str),
      explain (shortcutExtract hg hb payload).1 (shortcutExtract hg hb payload).2 =
        .error e →
      ((shortcutExtract hg hb payload).1.isEmpty &&
        (shortcutExtract hg hb payload).2.isEmpty) = false →
      handle_shortcut_async hg hb (some vid) lm explain post payload =
        ([.viewsOpen (simpleModal lm), .aiExplain,
          .viewsUpdate (.str vid) (simpleModal (shortcutFallbackText e))], false)) ∧
    (∀ (hg : Str → Option Str) (hb : Str → Option (List Nat)) (vid lm : Str)
       (explain : Str → List Image → Except Str Str) (shortcut : Json) (e : Str),
      explain (shortcutExtract hg hb shortcut).1 (shortcutExtract hg hb shortcut).2 =
        .error e →
      ((shortcutExtract hg hb shortcut).1.isEmpty &&
        (shortcutExtract hg hb shortcut).2.isEmpty) = false →
      handle_explain_jargon_lazy hg hb (some vid) lm explain shortcut =
        ([.viewsOpen (simpleModal lm), .aiExplain,
          .viewsUpdate (.str vid) (simpleModal lazyFallbackText)], false)) ∧
    (∀ (hl : Str → Str → List Json) (h10 : Str → List Json)
       (explain : Str → List Image → Except Str Str)
       (chat : List Json → Except Str Str) (event : Json) (e : Str),
      dmUserMessage event ≠ [] →
      dmChannel event ≠ [] →
      searchSlackLink (dmUserMessage event) = none →
      chat (dmHistoryMessages (h10 (dmChannel event)) (dmUserMessage event)) =
        .error e →
      handle_dm_event hl h10 explain chat event =
        ([.conversationsHistory (dmChannel event), .aiChat,
          .postMessage (dmChannel event) none dmFallbackText none], false)) ∧
    (∀ (hl : Str → Str → List Json) (h10 : Str → List Json)
       (explain : Str → List Image → Except Str Str)
       (chat : List Json → Except Str Str) (event : Json)
       (chan rawTs linked : Str) (e : Str),
      dmUserMessage event ≠ [] →
      dmChannel event ≠ [] →
      searchSlackLink (dmUserMessage event) = some (chan, rawTs) →
      fetch_slack_message hl chan rawTs = some linked →
      linked ≠ [] →
      explain linked [] = .error e →
      handle_dm_event hl h10 explain chat event =
        ([.conversationsHistory chan, .aiExplain,
          .postMessage (dmChannel event) none dmFallbackText none], false)) := by
  refine ⟨?_, ?_, ?_, ?_⟩
  · intro hg hb vid lm explain post payload e herr hne
    unfold handle_shortcut_async
    dsimp only
    rw [hne, herr]
    rfl
  · intro hg hb vid lm explain shortcut e herr hne
    unfold handle_explain_jargon_lazy
    dsimp only
    rw [hne, herr]
    rfl
  · intro hl h10 explain chat event e hum hch hlink herr
    unfold handle_dm_event
    dsimp only
    rw [show (dmUserMessage event).isEmpty = false by simpa [List.isEmpty_iff] using hum,
        show (dmChannel event).isEmpty = false by simpa [List.isEmpty_iff] using hch,
        hlink, herr]
    rfl
  · intro hl h10 explain chat event chan rawTs linked e hum hch hlink hfetch hlk herr
    unfold handle_dm_event
    dsimp only
    rw [show (dmUserMessage event).isEmpty = false by simpa [List.isEmpty_iff] using hum,
        show (dmChannel event).isEmpty = false by simpa [List.isEmpty_iff] using hch,
        hlink]
    dsimp only
    rw [hfetch]
    dsimp only
    rw [show linked.isEmpty = false by simpa [List.isEmpty_iff] using hlk, herr]
    rfl

/-- Concrete instances of C4: each handler, given an AI oracle that
raises, produces exactly its fallback effect list and no escaped
exception. -/
theorem handlers_catch_ai_exceptions_witness :
    handle_shortcut_async (fun _ => none) (fun _ => none) (some (S "V"))
        (S "L") (fun _ _ => .error (S "boom")) (.ok ())
        (Json.obj [(S "message", Json.obj [(S "text", .str (S "ISR rocks"))])]) =
      ([.viewsOpen (simpleModal (S "L")), .aiExplain,
        .viewsUpdate (.str (S "V")) (simpleModal (shortcutFallbackText (S "boom")))],
       false) ∧
    handle_explain_jargon_lazy (fun _ => none) (fun _ => none) (some (S "V"))
        (S "L") (fun _ _ => .error (S "boom"))
        (Json.obj [(S "message", Json.obj [(S "text", .str (S "ISR rocks"))])]) =
      ([.viewsOpen (simpleModal (S "L")), .aiExplain,
        .viewsUpdate (.str (S "V")) (simpleModal lazyFallbackText)], false) ∧
    handle_dm_event (fun _ _ => []) (fun _ => []) (fun _ _ => .error (S "x"))
        (fun _ => .error (S "x"))
        (Json.obj [(S "channel", .str (S "D1")), (S "text", .str (S "hello"))]) =
      ([.conversationsHistory (S "D1"), .aiChat,
        .postMessage (S "D1") none dmFallbackText none], false) ∧
    handle_dm_event (fun _ _ => [Json.obj [(S "text", .str (S "deep jargon"))]])
        (fun _ => []) (fun _ _ => .error (S "x")) (fun _ => .error (S "x"))
        (Json.obj [(S "channel", .str (S "D1")),
          (S "text", .str (S "https://my-team.slack.com/archives/C0123/p1234567890123456"))]) =
      ([.conversationsHistory (S "C0123"), .aiExplain,
        .postMessage (S "D1") none dmFallbackText none], false) := by
  refine ⟨?_, ?_, ?_, ?_⟩
  · exact handlers_catch_ai_exceptions.1 (fun _ => none) (fun _ => none) (S "V")
      (S "L") (fun _ _ => .error (S "boom")) (.ok ())
      (Json.obj [(S "message", Json.obj [(S "text", .str (S "ISR rocks"))])])
      (S "boom") rfl (by decide)
  · exact handlers_catch_ai_exceptions.2.1 (fun _ => none) (fun _ => none) (S "V")
      (S "L") (fun _ _ => .error (S "boom"))
      (Json.obj [(S "message", Json.obj [(S "text", .str (S "ISR rocks"))])])
      (S "boom") rfl (by decide)
  · exact handlers_catch_ai_exceptions.2.2.1 (fun _ _ => []) (fun _ => [])
      (fun _ _ => .error (S "x")) (fun _ => .error (S "x"))
      (Json.obj [(S "channel", .str (S "D1")), (S "text", .str (S "hello"))])
      (S "x") (by decide) (by decide) (by decide) rfl
  · exact handlers_catch_ai_exceptions.2.2.2
      (fun _ _ => [Json.obj [(S "text", .str (S "deep jargon"))]]) (fun _ => [])
      (fun _ _ => .error (S "x")) (fun _ => .error (S "x"))
      (Json.obj [(S "channel", .str (S "D1")),
        (S "text", .str (S "https://my-team.slack.com/archives/C0123/p1234567890123456"))])
      (S "C0123") (S "1234567890123456") (S "deep jargon") (S "x")
      (by decide) (by decide) (by decide) (by decide) (by decide) rfl

/-- The URL loop equals appending one content section per fetched pair. -/
theorem fetchLoop_eq (hg : Str → Option Str) (urls : List Str) :
    ∀ t : Str, fetchLoop hg t urls = t ++ (fetchedPairs hg urls).flatMap contentSection := by
  induction urls with
  | nil => intro t; simp [fetchLoop, fetchedPairs]
  | cons u rest ih =>
      intro t
      rw [fetchLoop, fetchedPairs]
      dsimp only
      split
      · rw [ih]
      · split
        · rw [ih]
        · rw [ih, List.flatMap_cons, contentSection]
          simp [List.append_assoc]

/-- The URLs actually fetched are the cleaned candidate URLs that are not
slack.com links and yield non-empty content. -/
theorem fetchedPairs_map_fst (hg : Str → Option Str) (urls : List Str) :
    (fetchedPairs hg urls).map Prod.fst =
      (urls.map (pyRstrip urlJunk)).filter
        (fun u => !isSubstr (S "slack.com") u && !(fetch_url_content hg u).isEmpty) := by
  induction urls with
  | nil => rfl
  | cons u rest ih =>
      rw [fetchedPairs, List.map_cons, List.filter_cons]
      dsimp only
      split
      · next hs =>
          rw [hs]
          simp only [Bool.not_true, Bool.false_and, ih]
          rfl
      · next hs =>
          have hs' : isSubstr (S "slack.com") (pyRstrip urlJunk u) = false := by
            cases h : isSubstr (S "slack.com") (pyRstrip urlJunk u)
            · rfl
            · exact absurd h hs
          split
          · next hc =>
              rw [hs', hc]
              simp only [Bool.not_true, Bool.and_false, Bool.not_false, Bool.true_and, ih]
              rfl
          · next hc =>
              have hc' : (fetch_url_content hg (pyRstrip urlJunk u)).isEmpty = false := by
                cases h : (fetch_url_content hg (pyRstrip urlJunk u)).isEmpty
                · rfl
                · exact absurd h hc
              rw [hs', hc']
              simp only [Bool.not_false, Bool.and_true, List.map_cons, ih]
              rfl

/-- Filtering by a conjunction is a sublist of filtering by one
conjunct. -/
theorem filter_and_sublist (p q : α → Bool) (l : List α) :
    List.Sublist (l.filter fun a => p a && q a) (l.filter p) := by
  induction l with
  | nil => simp
  | cons a rest ih =>
      cases hp : p a <;> cases hq : q a <;>
        simp only [List.filter_cons, hp, hq, Bool.and_true, Bool.and_false,
          Bool.true_and, Bool.false_and, if_true, if_false]
      · exact ih
      · exact ih
      · exact ih.cons a
      · exact ih.cons₂ a

/-- A front piece stays a front piece under `filter`. -/
theorem pref_filter {l1 l2 : List α} (p : α → Bool) (h : l1 <+: l2) :
    l1.filter p <+: l2.filter p := by
  obtain ⟨r, rfl⟩ := h
  rw [List.filter_append]
  exact ⟨(r.filter p), rfl⟩

/-- A front piece of length at most `n` is a front piece of the first
`n` elements. -/
theorem pref_take_of_le {l1 L : List α} (n : Nat) (h : l1 <+: L)
    (hlen : l1.length ≤ n) : l1 <+: L.take n := by
  obtain ⟨r, rfl⟩ := h
  rw [List.take_append_eq_append_take, List.take_of_length_le hlen]
  exact ⟨(r.take (n - l1.length)), rfl⟩

/-- `filter` after `take n` is a front piece of `take n` after
`filter`. -/
theorem filter_take_front (p : α → Bool) (n : Nat) (l : List α) :
    (l.take n).filter p <+: (l.filter p).take n := by
  apply pref_take_of_le
  · exact pref_filter p ⟨l.drop n, List.take_append_drop n l⟩
  · calc ((l.take n).filter p).length ≤ (l.take n).length := l.take n |>.length_filter_le p
      _ ≤ n := by simp [List.length_take]

/-- Fetched page content is capped at 2000 characters. -/
theorem fetch_url_content_le (hg : Str → Option Str) (u : Str) :
    (fetch_url_content hg u).length ≤ 2000 := by
  unfold fetch_url_content
  cases hg u with
  | none => simp
  | some raw => simp [List.length_take]

/-- Every appended content section is non-empty and capped at 2000
characters. -/
theorem fetchedPairs_all (hg : Str → Option Str) (urls : List Str) :
    (fetchedPairs hg urls).all (fun p => !p.2.isEmpty && p.2.length ≤ 2000) = true := by
  induction urls with
  | nil => rfl
  | cons u rest ih =>
      rw [fetchedPairs]
      dsimp only
      split
      · exact ih
      · split
        · exact ih
        · next hc =>
            have hc' : (fetch_url_content hg (pyRstrip urlJunk u)).isEmpty = false := by
              cases h : (fetch_url_content hg (pyRstrip urlJunk u)).isEmpty
              · rfl
              · exact absurd h hc
            simp only [List.all_cons, ih, Bool.and_true]
            simp [hc', fetch_url_content_le]

/-- A successful download carries an allowed image mimetype. -/
theorem download_slack_image_mime (hb : Str → Option (List Nat)) (f : Json)
    (img : Image) (h : download_slack_image hb f = some img) :
    IMAGE_MIME_TYPES.contains img.mime_type = true := by
  unfold download_slack_image at h
  dsimp only at h
  split at h
  · exact Option.noConfusion h
  · next hm =>
      repeat' split at h
      all_goals
        first
        | exact Option.noConfusion h
        | (injection h with h'; subst h'; simpa using hm)

/-- Every accumulated attachment part is non-empty and not already a
substring of the stripped message text. -/
theorem attachmentParts_all (m : Json) (base : Str) :
    (attachmentParts m base).all (fun v => !v.isEmpty && !isSubstr v base) = true := by
  rw [List.all_eq_true]
  intro v hv
  unfold attachmentParts at hv
  rw [List.mem_flatMap] at hv
  obtain ⟨att, -, hv⟩ := hv
  rw [List.mem_filterMap] at hv
  obtain ⟨f, -, hf⟩ := hv
  dsimp only at hf
  split at hf
  · next hcond =>
      injection hf with h'
      subst h'
      exact hcond
  · exact Option.noConfusion hf

/-- C5: `extract_message_text` returns (text, images) where the text is
the stripped message text extended with the qualifying attachment fields
(non-empty, not already a substring of the stripped text) and then with
one section of fetched content per fetched URL; the fetched URLs are a
sublist of the first 3 non-slack.com URLs found in the text and each
fetched content is non-empty and capped at 2000 characters; and the
images are exactly the successfully downloaded file attachments, each
with an allowed image mimetype. -/
theorem extract_message_text_spec (hg : Str → Option Str)
    (hb : Str → Option (List Nat)) (message : Json) :
    (extract_message_text hg hb message true).1 =
      textWithAttachments message ++
        (fetchedPairs hg ((findUrls (textWithAttachments message)).take 3)).flatMap
          contentSection ∧
    (attachmentParts message (pyStrip (message.getStrD (S "text") []))).all
      (fun v => !v.isEmpty && !isSubstr v (pyStrip (message.getStrD (S "text") []))) =
      true ∧
    List.Sublist
      ((fetchedPairs hg ((findUrls (textWithAttachments message)).take 3)).map Prod.fst)
      (claimFetchCandidates (textWithAttachments message)) ∧
    (fetchedPairs hg ((findUrls (textWithAttachments message)).take 3)).all
      (fun p => !p.2.isEmpty && p.2.length ≤ 2000) = true ∧
    (extract_message_text hg hb message true).2 =
      (message.getArrD (S "files") []).filterMap (download_slack_image hb) ∧
    (extract_message_text hg hb message true).2.all
      (fun img => IMAGE_MIME_TYPES.contains img.mime_type) = true := by
  refine ⟨?_, attachmentParts_all _ _, ?_, fetchedPairs_all _ _, rfl, ?_⟩
  · exact fetchLoop_eq hg ((findUrls (textWithAttachments message)).take 3)
      (textWithAttachments message)
  · rw [fetchedPairs_map_fst]
    have h1 : ((findUrls (textWithAttachments message)).take 3).map (pyRstrip urlJunk) =
        ((findUrls (textWithAttachments message)).map (pyRstrip urlJunk)).take 3 := by
      simp [List.map_take]
    rw [h1]
    unfold claimFetchCandidates
    exact (filter_and_sublist _ _ _).trans (filter_take_front _ 3 _).sublist
  · rw [List.all_eq_true]
    intro img hi
    rw [show (extract_message_text hg hb message true).2 =
      (message.getArrD (S "files") []).filterMap (download_slack_image hb) from rfl] at hi
    rw [List.mem_filterMap] at hi
    obtain ⟨f, -, hf⟩ := hi
    exact download_slack_image_mime hb f img hf
